import Mathlib

/-
Verification of the Unipile-Connector HTTP core: the per-account rate
limiter, the rate-limit header parsing, the request dispatcher's error
classification and retry loop, and the environment-based constructor.

Conventions of the embedding:
- Timestamps and durations are integers counting milliseconds (JS Date
  epoch-milliseconds and JS numbers at the call sites in question are
  integral).
- The JS Map of per-account states is an association list with unique
  keys; Map.set on a fresh key appends, on an existing key updates in
  place, which setPair mirrors.
- Methods that mutate the limiter take it and return the updated copy;
  methods that also return a value return a pair.
- Date.now() is passed in explicitly as a parameter named now; a single
  call of a method sees one value of now.
- The JS Date constructor applied to an arbitrary string (HTTP-date
  parsing) is kept abstract as a parameter dp : String -> Option Int
  giving the parsed epoch-milliseconds, none when the date is invalid.
-/

namespace Unipile

/-- Per-account rate limit state (interface AccountRateLimitState). -/
structure AccountRateLimitState where
  consecutiveErrors : Nat
  resetAt : Option Int
  currentBackoffMs : Int
  lastRequestAt : Option Int
deriving Repr, DecidableEq

/-- Rate limiter with per-account tracking and exponential backoff
(class RateLimiter): association-list model of the private Map together
with the two configured delays. -/
structure RateLimiter where
  accountStates : List (String × AccountRateLimitState)
  baseDelayMs : Int
  maxDelayMs : Int
deriving Repr, DecidableEq

/-- Constructor of RateLimiter: empty map, configured delays. -/
def mkRateLimiter (baseDelayMs maxDelayMs : Int) : RateLimiter :=
  { accountStates := [], baseDelayMs := baseDelayMs, maxDelayMs := maxDelayMs }

/-- Lookup in the association list modelling Map.get. -/
def lookupPair : List (String × AccountRateLimitState) → String → Option AccountRateLimitState
  | [], _ => none
  | (k', v) :: rest, k => if k' = k then some v else lookupPair rest k

/-- Update in the association list modelling Map.set: replaces the entry
in place when the key is present, appends otherwise. -/
def setPair : List (String × AccountRateLimitState) → String → AccountRateLimitState →
    List (String × AccountRateLimitState)
  | [], k, v => [(k, v)]
  | (k', v') :: rest, k, v =>
    if k' = k then (k, v) :: rest else (k', v') :: setPair rest k v

/-- Removal from the association list modelling Map.delete. -/
def delPair : List (String × AccountRateLimitState) → String → List (String × AccountRateLimitState)
  | [], _ => []
  | (k', v') :: rest, k => if k' = k then rest else (k', v') :: delPair rest k

/-- The state freshly created for a previously unseen account. -/
def defaultState (rl : RateLimiter) : AccountRateLimitState :=
  { consecutiveErrors := 0, resetAt := none, currentBackoffMs := rl.baseDelayMs,
    lastRequestAt := none }

/-- RateLimiter.getAccountState: returns the stored state, lazily
inserting the default state for an unseen account. -/
def getAccountState (rl : RateLimiter) (accountId : String) :
    AccountRateLimitState × RateLimiter :=
  match lookupPair rl.accountStates accountId with
  | some state => (state, rl)
  | none =>
    let state := defaultState rl
    (state, { rl with accountStates := setPair rl.accountStates accountId state })

/-- The second half of RateLimiter.shouldWait: the exponential-backoff
check on a state whose resetAt has already been dealt with. -/
def backoffWaitTime (state : AccountRateLimitState) (now : Int) : Int :=
  if state.consecutiveErrors > 0 then
    match state.lastRequestAt with
    | some l =>
      let waitTime := state.currentBackoffMs - (now - l)
      if waitTime > 0 then waitTime else 0
    | none => 0
  else 0

/-- RateLimiter.shouldWait: reset-deadline check first (clearing an
expired deadline in place), then the exponential-backoff check. -/
def shouldWait (rl : RateLimiter) (accountId : String) (now : Int) : Int × RateLimiter :=
  let gs := getAccountState rl accountId
  let state := gs.1
  let rl1 := gs.2
  match state.resetAt with
  | some r =>
    if r - now > 0 then (r - now, rl1)
    else
      let state2 := { state with resetAt := none }
      let rl2 := { rl1 with accountStates := setPair rl1.accountStates accountId state2 }
      (backoffWaitTime state2 now, rl2)
  | none => (backoffWaitTime state now, rl1)

/-- RateLimiter.recordSuccess. -/
def recordSuccess (rl : RateLimiter) (accountId : String) (now : Int) : RateLimiter :=
  let gs := getAccountState rl accountId
  let state := gs.1
  let rl1 := gs.2
  let state2 := { state with consecutiveErrors := 0, currentBackoffMs := rl1.baseDelayMs,
                             resetAt := none, lastRequestAt := some now }
  { rl1 with accountStates := setPair rl1.accountStates accountId state2 }

/-- RateLimiter.recordRateLimitError. -/
def recordRateLimitError (rl : RateLimiter) (accountId : String) (resetAt : Option Int)
    (now : Int) : RateLimiter :=
  let gs := getAccountState rl accountId
  let state := gs.1
  let rl1 := gs.2
  let state2 := { state with consecutiveErrors := state.consecutiveErrors + 1,
                             lastRequestAt := some now }
  let state3 :=
    match resetAt with
    | some r => { state2 with resetAt := some r }
    | none => { state2 with currentBackoffMs := min (state2.currentBackoffMs * 2) rl1.maxDelayMs }
  { rl1 with accountStates := setPair rl1.accountStates accountId state3 }

/-- RateLimiter.reset. -/
def RateLimiter.reset (rl : RateLimiter) (accountId : String) : RateLimiter :=
  { rl with accountStates := delPair rl.accountStates accountId }

/-- RateLimiter.resetAll. -/
def RateLimiter.resetAll (rl : RateLimiter) : RateLimiter :=
  { rl with accountStates := [] }

/-- RateLimiter.getCurrentBackoff. -/
def getCurrentBackoff (rl : RateLimiter) (accountId : String) : Int × RateLimiter :=
  let gs := getAccountState rl accountId
  (gs.1.currentBackoffMs, gs.2)

/-- RateLimiter.getConsecutiveErrors. -/
def getConsecutiveErrors (rl : RateLimiter) (accountId : String) : Nat × RateLimiter :=
  let gs := getAccountState rl accountId
  (gs.1.consecutiveErrors, gs.2)

/-- Whitespace skipped by the JS parseInt before the number. -/
def isJsSpace (c : Char) : Bool :=
  c = ' ' || c = '\t' || c = '\n' || c = '\r'

/-- Value of the longest leading run of decimal digits, none when the run
is empty (the NaN case of parseInt). -/
def leadingDigitsVal (cs : List Char) : Option Nat :=
  let ds := cs.takeWhile (fun c => c.isDigit)
  if ds.isEmpty then none
  else some (ds.foldl (fun a c => a * 10 + (c.toNat - 48)) 0)

/-- The JS parseInt(s, 10): skip whitespace, optional sign, longest digit
run; none models NaN. -/
def parseIntJS (s : String) : Option Int :=
  let cs := s.toList.dropWhile isJsSpace
  match cs with
  | '-' :: rest => (leadingDigitsVal rest).map (fun n => -(n : Int))
  | '+' :: rest => (leadingDigitsVal rest).map (fun n => (n : Int))
  | _ => (leadingDigitsVal cs).map (fun n => (n : Int))

/-- The two response headers that RateLimiter.parseRateLimitHeaders reads
(headers.get is case-insensitive in JS; the model keys each header once). -/
structure HeadersModel where
  retryAfter : Option String := none
  xRateLimitReset : Option String := none
deriving Repr, DecidableEq

/-- Second block of RateLimiter.parseRateLimitHeaders: the
X-RateLimit-Reset header as a Unix timestamp, seconds converted to
milliseconds when the value is not above 10000000000. -/
def parseXRateLimitReset (headers : HeadersModel) : Option Int :=
  match headers.xRateLimitReset with
  | some s =>
    match parseIntJS s with
    | some timestamp =>
      let ms := if timestamp > 10000000000 then timestamp else timestamp * 1000
      some ms
    | none => none
  | none => none

/-- RateLimiter.parseRateLimitHeaders: Retry-After as integer seconds,
else as an HTTP date (the abstract dp), else fall through to
X-RateLimit-Reset. -/
def parseRateLimitHeaders (dp : String → Option Int) (headers : HeadersModel)
    (now : Int) : Option Int :=
  match headers.retryAfter with
  | some retryAfter =>
    match parseIntJS retryAfter with
    | some seconds => some (now + seconds * 1000)
    | none =>
      match dp retryAfter with
      | some t => some t
      | none => parseXRateLimitReset headers
  | none => parseXRateLimitReset headers

/-- Error categories (enum ErrorCategory). -/
inductive ErrorCategory where
  | timeout
  | connection
  | rate_limit
  | auth
  | validation
  | not_found
  | unknown
deriving Repr, DecidableEq

/-- Error context (interface ErrorContext); the responseBody and cause
fields carry no claim-relevant data and are left out of the model. -/
structure ErrorContext where
  statusCode : Option Nat := none
  url : Option String := none
  method : Option String := none
  accountId : Option String := none
  retryAttempt : Option Nat := none
  rateLimitResetAt : Option Int := none
deriving Repr, DecidableEq

/-- Typed error (class UnipileError and its subclasses, flattened to
category, message, retryability and context; the subclass-specific extras
are constant at every dispatcher call site: the validation detail list is
empty and the not-found resource type and id are absent). -/
structure TypedError where
  category : ErrorCategory
  message : String
  isRetryable : Bool
  context : ErrorContext
deriving Repr, DecidableEq

/-- Constructor of the base UnipileError. -/
def mkUnipileError (message : String) (category : ErrorCategory) (context : ErrorContext)
    (isRetryable : Bool) : TypedError :=
  { category := category, message := message, isRetryable := isRetryable, context := context }

/-- Constructor of TimeoutError: category timeout, retryable. -/
def mkTimeoutError (message : String) (context : ErrorContext) : TypedError :=
  mkUnipileError message ErrorCategory.timeout context true

/-- Constructor of ConnectionError: category connection, retryable. -/
def mkConnectionError (message : String) (context : ErrorContext) : TypedError :=
  mkUnipileError message ErrorCategory.connection context true

/-- Constructor of RateLimitError: category rate_limit, retryable; its
resetAt field is read back from context.rateLimitResetAt. -/
def mkRateLimitError (message : String) (context : ErrorContext) : TypedError :=
  mkUnipileError message ErrorCategory.rate_limit context true

/-- Constructor of AuthError: category auth, not retryable. -/
def mkAuthError (message : String) (context : ErrorContext) : TypedError :=
  mkUnipileError message ErrorCategory.auth context false

/-- Constructor of NotFoundError: category not_found, not retryable. -/
def mkNotFoundError (message : String) (context : ErrorContext) : TypedError :=
  mkUnipileError message ErrorCategory.not_found context false

/-- Constructor of ValidationError: category validation, not retryable. -/
def mkValidationError (message : String) (context : ErrorContext) : TypedError :=
  mkUnipileError message ErrorCategory.validation context false

/-- RateLimitError.getRetryAfterMs: milliseconds until the reset
timestamp, 0 when passed or never set. -/
def getRetryAfterMs (resetAt : Option Int) (now : Int) : Int :=
  match resetAt with
  | none => 0
  | some r => max 0 (r - now)

/-- The three string fields probed by HttpClient.extractErrorMessage on a
decoded JSON error body; none stands for a body that failed to parse. -/
structure BodyModel where
  message : Option String := none
  error : Option String := none
  errorDescription : Option String := none
deriving Repr, DecidableEq

/-- HttpClient.extractErrorMessage: message, else error, else
error_description, else the category-specific fallback. -/
def extractErrorMessage (body : Option BodyModel) (fallback : String) : String :=
  match body with
  | some b =>
    match b.message with
    | some m => m
    | none =>
      match b.error with
      | some m => m
      | none =>
        match b.errorDescription with
        | some m => m
        | none => fallback
  | none => fallback

/-- The parts of a fetch Response read by HttpClient.handleResponse. -/
structure HttpResponseModel where
  status : Nat
  url : String := ""
  headers : HeadersModel := {}
  body : Option BodyModel := none
deriving Repr, DecidableEq

/-- The parts of RequestOptions the dispatcher claims depend on; url
stands for the already-built request URL. -/
structure RequestOptionsModel where
  method : String := "GET"
  url : String := ""
  accountId : Option String := none
  timeout : Option Int := none
deriving Repr, DecidableEq

/-- Outcome of one transport attempt as seen by executeRequest: a
returned response, a rethrown typed error, a thrown JS Error (name and
message), or a thrown non-Error value (stringified). -/
inductive TransportOutcome where
  | response (resp : HttpResponseModel)
  | thrownTyped (e : TypedError)
  | thrownJsError (name message : String)
  | thrownOther (value : String)
deriving Repr, DecidableEq

/-- Check that the pattern is a lead segment of the character list. -/
def charsLeadEq : List Char → List Char → Bool
  | [], _ => true
  | _ :: _, [] => false
  | a :: as, b :: bs => a == b && charsLeadEq as bs

/-- The JS String.includes used on error messages. -/
def strContains (s pat : String) : Bool :=
  let sl := s.toList
  let pl := pat.toList
  (List.range (sl.length + 1)).any (fun i => charsLeadEq pl (sl.drop i))

/-- HttpClient.handleResponse: status classification in source order,
success decoding abstracted to the status value. -/
def handleResponse (dp : String → Option Int) (resp : HttpResponseModel)
    (opts : RequestOptionsModel) (attempt : Nat) (now : Int) : Except TypedError Nat :=
  let context : ErrorContext :=
    { statusCode := some resp.status, url := some resp.url, method := some opts.method,
      accountId := opts.accountId, retryAttempt := some attempt }
  if resp.status = 429 then
    let resetAt := parseRateLimitHeaders dp resp.headers now
    Except.error (mkRateLimitError "Rate limit exceeded"
      { context with rateLimitResetAt := resetAt })
  else if resp.status = 401 ∨ resp.status = 403 then
    Except.error (mkAuthError (extractErrorMessage resp.body "Authentication failed") context)
  else if resp.status = 404 then
    Except.error (mkNotFoundError (extractErrorMessage resp.body "Resource not found") context)
  else if resp.status = 400 ∨ resp.status = 422 then
    Except.error (mkValidationError (extractErrorMessage resp.body "Validation failed") context)
  else if 500 ≤ resp.status then
    Except.error (mkUnipileError (extractErrorMessage resp.body "Server error")
      ErrorCategory.unknown context true)
  else if 400 ≤ resp.status then
    Except.error (mkUnipileError (extractErrorMessage resp.body "Request failed")
      ErrorCategory.unknown context false)
  else
    Except.ok resp.status

/-- HttpClient.executeRequest: one transport attempt, with the catch
block's classification of thrown values. -/
def executeRequest (dp : String → Option Int) (outcome : TransportOutcome)
    (opts : RequestOptionsModel) (timeoutMs : Int) (attempt : Nat) (now : Int) :
    Except TypedError Nat :=
  match outcome with
  | .response resp => handleResponse dp resp opts attempt now
  | .thrownTyped e => Except.error e
  | .thrownJsError name message =>
    let baseCtx : ErrorContext :=
      { url := some opts.url, method := some opts.method, retryAttempt := some attempt }
    if name = "AbortError" then
      Except.error (mkTimeoutError
        ("Request timed out after " ++ toString timeoutMs ++ "ms") baseCtx)
    else if strContains message "ECONNREFUSED" || strContains message "ENOTFOUND" ||
        strContains message "network" then
      Except.error (mkConnectionError ("Connection failed: " ++ message) baseCtx)
    else
      Except.error (mkUnipileError ("Request failed: " ++ message)
        ErrorCategory.unknown baseCtx true)
  | .thrownOther value =>
    Except.error (mkUnipileError ("Request failed: " ++ value) ErrorCategory.unknown
      { url := some opts.url, method := some opts.method, retryAttempt := some attempt } true)

/-- Client-level configuration consumed by HttpClient.request, with the
defaults of DEFAULT_CONFIG. -/
structure HttpClientConfig where
  timeout : Int := 30000
  enableRetry : Bool := true
  maxRetries : Nat := 5
deriving Repr, DecidableEq

/-- Result of one logical HttpClient.request call: the returned value or
thrown typed error, the number of transport invocations performed, the
rate limiter afterwards, and the clock after all timed waits. -/
structure DispatchResult where
  result : Except TypedError Nat
  attempts : Nat
  limiter : RateLimiter
  finalNow : Int
deriving Repr

/-- The attempt loop of HttpClient.request. The remaining fuel equals
maxAttempts - attempt + 1, so the source's attempt >= maxAttempts test on
a failed attempt is remaining = 1, here rem = 0 after the match; sleeps
advance the clock by the slept duration; used counts transport
invocations. -/
def attemptLoop (dp : String → Option Int) (cfg : HttpClientConfig)
    (opts : RequestOptionsModel) (transport : Nat → TransportOutcome) (accountId : String)
    (rl : RateLimiter) (now : Int) (attempt : Nat) (remaining : Nat)
    (lastError : Option TypedError) (used : Nat) : DispatchResult :=
  match remaining with
  | 0 =>
    { result := Except.error (lastError.getD
        (mkUnipileError "Request failed after retries" ErrorCategory.unknown {} false)),
      attempts := used, limiter := rl, finalNow := now }
  | Nat.succ rem =>
    match executeRequest dp (transport attempt) opts (opts.timeout.getD cfg.timeout)
        attempt now with
    | .ok status =>
      let rl2 := recordSuccess rl accountId now
      { result := Except.ok status, attempts := used + 1, limiter := rl2, finalNow := now }
    | .error e =>
      if e.isRetryable = false ∨ rem = 0 then
        { result := Except.error e, attempts := used + 1, limiter := rl, finalNow := now }
      else if e.category = ErrorCategory.rate_limit then
        let rl2 := recordRateLimitError rl accountId e.context.rateLimitResetAt now
        let retryAfter := getRetryAfterMs e.context.rateLimitResetAt now
        let gb := getCurrentBackoff rl2 accountId
        let sleepMs := if retryAfter > 0 then retryAfter else gb.1
        attemptLoop dp cfg opts transport accountId gb.2 (now + sleepMs) (attempt + 1) rem
          (some e) (used + 1)
      else
        let delay := min (1000 * 2 ^ (attempt - 1)) 30000
        attemptLoop dp cfg opts transport accountId rl (now + delay) (attempt + 1) rem
          (some e) (used + 1)

/-- HttpClient.request: rate-limit gate, then the attempt loop. -/
def request (dp : String → Option Int) (cfg : HttpClientConfig) (opts : RequestOptionsModel)
    (transport : Nat → TransportOutcome) (rl : RateLimiter) (now : Int) : DispatchResult :=
  let accountId := opts.accountId.getD "global"
  let sw := shouldWait rl accountId now
  let waitTime := sw.1
  let rl1 := sw.2
  let maxAttempts := if cfg.enableRetry then cfg.maxRetries else 1
  if waitTime > 0 then
    if cfg.enableRetry then
      attemptLoop dp cfg opts transport accountId rl1 (now + waitTime) 1 maxAttempts none 0
    else
      { result := Except.error (mkRateLimitError
          ("Rate limit active, retry after " ++ toString waitTime ++ "ms")
          { accountId := some accountId, rateLimitResetAt := some (now + waitTime) }),
        attempts := 0, limiter := rl1, finalNow := now }
  else
    attemptLoop dp cfg opts transport accountId rl1 now 1 maxAttempts none 0

/-- One call of the public RateLimiter interface, for reachability over
arbitrary call sequences. -/
inductive LimiterOp where
  | opShouldWait (acc : String) (now : Int)
  | opRecordSuccess (acc : String) (now : Int)
  | opRecordError (acc : String) (resetAt : Option Int) (now : Int)
  | opReset (acc : String)
  | opResetAll
  | opGetBackoff (acc : String)
  | opGetErrors (acc : String)
deriving Repr, DecidableEq

/-- State effect of one RateLimiter call. -/
def applyOp (rl : RateLimiter) : LimiterOp → RateLimiter
  | .opShouldWait acc now => (shouldWait rl acc now).2
  | .opRecordSuccess acc now => recordSuccess rl acc now
  | .opRecordError acc r now => recordRateLimitError rl acc r now
  | .opReset acc => RateLimiter.reset rl acc
  | .opResetAll => RateLimiter.resetAll rl
  | .opGetBackoff acc => (getCurrentBackoff rl acc).2
  | .opGetErrors acc => (getConsecutiveErrors rl acc).2

/-- State after a sequence of RateLimiter calls. -/
def runOps (rl : RateLimiter) (ops : List LimiterOp) : RateLimiter :=
  ops.foldl applyOp rl

/-- The three environment variables read by UnipileClient.fromEnv; a
value of none is an unset variable. -/
structure EnvModel where
  unipileDsn : Option String := none
  unipileApiKey : Option String := none
  unipileUseHttp : Option String := none
deriving Repr, DecidableEq

/-- The configuration fromEnv hands to the client constructor. -/
structure UnipileConfigModel where
  dsn : String
  apiKey : String
  useHttp : Bool
deriving Repr, DecidableEq

/-- UnipileClient.fromEnv: reads the variables, throws (error) with the
message of the missing variable before any client is constructed, else
returns the configuration the client is built from. -/
def fromEnv (env : EnvModel) : Except String UnipileConfigModel :=
  let dsn := env.unipileDsn
  let apiKey := env.unipileApiKey
  let useHttp := env.unipileUseHttp = some "true"
  match dsn with
  | none => Except.error "UNIPILE_DSN environment variable is required"
  | some d =>
    if d = "" then Except.error "UNIPILE_DSN environment variable is required"
    else
      match apiKey with
      | none => Except.error "UNIPILE_API_KEY environment variable is required"
      | some k =>
        if k = "" then Except.error "UNIPILE_API_KEY environment variable is required"
        else Except.ok { dsn := d, apiKey := k, useHttp := useHttp }

/-
Spec-side definitions: each one transcribes the words of a claim, to be
compared with the source-shaped definitions above by a refinement
theorem.
-/

/-- Transcription of the backoff clause of claim C1: only while
consecutiveErrors is positive and a lastRequestAt is recorded, the
still-unelapsed portion of currentBackoffMs measured from lastRequestAt,
0 if fully elapsed. -/
def claimedBackoffWait (st : AccountRateLimitState) (now : Int) : Int :=
  match st.lastRequestAt with
  | some l => if st.consecutiveErrors > 0 then max 0 (st.currentBackoffMs - (now - l)) else 0
  | none => 0

/-- Transcription of claim C1 on a single account state: a resetAt in the
future gives the remaining time at once; a passed resetAt is cleared and
the backoff clause answers; with no resetAt the backoff clause answers. -/
def claimedShouldWait (st : AccountRateLimitState) (now : Int) :
    Int × AccountRateLimitState :=
  match st.resetAt with
  | some r =>
    if now < r then (r - now, st)
    else
      let st2 := { st with resetAt := none }
      (claimedBackoffWait st2 now, st2)
  | none => (claimedBackoffWait st now, st)

/-- Category and retryability of a dispatcher outcome, none on success. -/
def resultCategory (r : Except TypedError Nat) : Option (ErrorCategory × Bool) :=
  match r with
  | .ok _ => none
  | .error e => some (e.category, e.isRetryable)

/-- Transcription of claim C4's status table: 429 rate_limit retryable,
401/403 auth, 400/422 validation, 404 not_found, 500 and above unknown
retryable, any other 400-and-above unknown non-retryable, below 400
success. -/
def claimedStatusClass (status : Nat) : Option (ErrorCategory × Bool) :=
  if status = 429 then some (ErrorCategory.rate_limit, true)
  else if status = 401 ∨ status = 403 then some (ErrorCategory.auth, false)
  else if status = 400 ∨ status = 422 then some (ErrorCategory.validation, false)
  else if status = 404 then some (ErrorCategory.not_found, false)
  else if 500 ≤ status then some (ErrorCategory.unknown, true)
  else if 400 ≤ status then some (ErrorCategory.unknown, false)
  else none

/-- Transcription of the amended claim C3: Retry-After attempted first,
an integer value giving now plus that many seconds, else an HTTP date
giving that instant; failing both, an integer X-RateLimit-Reset with
values at or below 10000000000 multiplied by 1000 and larger values taken
as milliseconds; nothing otherwise. -/
def claimedParseRateLimit (dp : String → Option Int) (headers : HeadersModel)
    (now : Int) : Option Int :=
  let viaRetryAfter : Option Int :=
    headers.retryAfter.bind (fun ra =>
      match parseIntJS ra with
      | some seconds => some (now + seconds * 1000)
      | none => dp ra)
  let viaReset : Option Int :=
    headers.xRateLimitReset.bind (fun s =>
      (parseIntJS s).map (fun ts => if ts ≤ 10000000000 then ts * 1000 else ts))
  match viaRetryAfter with
  | some t => some t
  | none => viaReset

/-- The limiter of the claimed backoff sequence: base 1000, max 10000,
after n recordRateLimitError calls with no reset time. -/
def repeatedRateLimitErrors : Nat → RateLimiter
  | 0 => mkRateLimiter 1000 10000
  | n + 1 => recordRateLimitError (repeatedRateLimitErrors n) "acc" none 0

/-- A date parser that accepts nothing, for concrete instantiations. -/
def dpNone : String → Option Int := fun _ => none

/-- A transport answering every attempt with a bare status, for concrete
instantiations. -/
def transportStatus (status : Nat) : Nat → TransportOutcome :=
  fun _ => TransportOutcome.response { status := status }

/-- The claimed range invariant on every tracked account state. -/
def BackoffInv (base maxD : Int) (m : List (String × AccountRateLimitState)) : Prop :=
  ∀ p ∈ m, base ≤ p.2.currentBackoffMs ∧ p.2.currentBackoffMs ≤ maxD ∧
    (p.2.consecutiveErrors = 0 → p.2.currentBackoffMs = base)

/-- The full limiter invariant: the configured delays are base and maxD
and every tracked state is in range. -/
def RLInv (base maxD : Int) (rl : RateLimiter) : Prop :=
  rl.baseDelayMs = base ∧ rl.maxDelayMs = maxD ∧ BackoffInv base maxD rl.accountStates

/-
Helper lemmas about the association-list model.
-/

/-- Lookup after an update reads the written value at the written key and
is unchanged elsewhere. -/
theorem lookupPair_setPair (m : List (String × AccountRateLimitState)) (k k' : String)
    (v : AccountRateLimitState) :
    lookupPair (setPair m k v) k' = if k' = k then some v else lookupPair m k' := by
  induction m with
  | nil =>
    simp only [setPair, lookupPair]
    by_cases h : k = k'
    · rw [if_pos h, if_pos h.symm]
    · rw [if_neg h, if_neg (fun hh : k' = k => h hh.symm)]
  | cons hd tl ih =>
    obtain ⟨k0, v0⟩ := hd
    simp only [setPair]
    by_cases h0 : k0 = k
    · rw [if_pos h0]
      simp only [lookupPair]
      by_cases hk : k = k'
      · rw [if_pos hk, if_pos hk.symm]
      · rw [if_neg hk, if_neg (fun hh : k' = k => hk hh.symm),
          if_neg (fun hh : k0 = k' => hk (h0 ▸ hh))]
    · rw [if_neg h0]
      simp only [lookupPair]
      by_cases hk0 : k0 = k'
      · have hk : ¬ k' = k := fun hh => h0 (hk0.trans hh)
        rw [if_pos hk0, if_neg hk, if_pos hk0]
      · rw [if_neg hk0, if_neg hk0, ih]

/-- Any entry of the updated list is the written pair or an old entry. -/
theorem mem_setPair {m : List (String × AccountRateLimitState)} {k : String}
    {v : AccountRateLimitState} {p : String × AccountRateLimitState}
    (hp : p ∈ setPair m k v) : p = (k, v) ∨ p ∈ m := by
  induction m with
  | nil => simpa [setPair] using hp
  | cons hd tl ih =>
    obtain ⟨k0, v0⟩ := hd
    simp only [setPair] at hp
    by_cases h0 : k0 = k
    · rw [if_pos h0] at hp
      rcases List.mem_cons.mp hp with h | h
      · exact Or.inl h
      · exact Or.inr (List.mem_cons_of_mem _ h)
    · rw [if_neg h0] at hp
      rcases List.mem_cons.mp hp with h | h
      · exact Or.inr (by simp [h])
      · rcases ih h with h' | h'
        · exact Or.inl h'
        · exact Or.inr (List.mem_cons_of_mem _ h')

/-- Any entry surviving a deletion was an entry before. -/
theorem mem_delPair {m : List (String × AccountRateLimitState)} {k : String}
    {p : String × AccountRateLimitState} (hp : p ∈ delPair m k) : p ∈ m := by
  induction m with
  | nil => simp [delPair] at hp
  | cons hd tl ih =>
    obtain ⟨k0, v0⟩ := hd
    simp only [delPair] at hp
    by_cases h0 : k0 = k
    · rw [if_pos h0] at hp
      exact List.mem_cons_of_mem _ hp
    · rw [if_neg h0] at hp
      rcases List.mem_cons.mp hp with h | h
      · exact by simp [h]
      · exact List.mem_cons_of_mem _ (ih h)

/-- A successful lookup is an entry of the list. -/
theorem lookupPair_mem {m : List (String × AccountRateLimitState)} {k : String}
    {v : AccountRateLimitState} (h : lookupPair m k = some v) : (k, v) ∈ m := by
  induction m with
  | nil => simp [lookupPair] at h
  | cons hd tl ih =>
    obtain ⟨k0, v0⟩ := hd
    simp only [lookupPair] at h
    by_cases h0 : k0 = k
    · rw [if_pos h0] at h
      injection h with h
      subst h0
      simp [h]
    · rw [if_neg h0] at h
      exact List.mem_cons_of_mem _ (ih h)

/-- The state getAccountState hands back is the stored one, or the
default for an unseen account. -/
theorem getAccountState_fst (rl : RateLimiter) (acc : String) :
    (getAccountState rl acc).1 = (lookupPair rl.accountStates acc).getD (defaultState rl) := by
  unfold getAccountState
  cases h : lookupPair rl.accountStates acc <;> simp [h]

/-- getAccountState leaves the configured base delay unchanged. -/
theorem getAccountState_base (rl : RateLimiter) (acc : String) :
    (getAccountState rl acc).2.baseDelayMs = rl.baseDelayMs := by
  unfold getAccountState
  cases h : lookupPair rl.accountStates acc <;> simp [h]

/-- getAccountState leaves the configured max delay unchanged. -/
theorem getAccountState_max (rl : RateLimiter) (acc : String) :
    (getAccountState rl acc).2.maxDelayMs = rl.maxDelayMs := by
  unfold getAccountState
  cases h : lookupPair rl.accountStates acc <;> simp [h]

/-- Lookups after getAccountState: the touched account reads its stored
or freshly-defaulted state, every other account reads as before. -/
theorem getAccountState_lookup (rl : RateLimiter) (acc acc' : String) :
    lookupPair (getAccountState rl acc).2.accountStates acc' =
      if acc' = acc then some ((lookupPair rl.accountStates acc).getD (defaultState rl))
      else lookupPair rl.accountStates acc' := by
  unfold getAccountState
  cases h : lookupPair rl.accountStates acc with
  | some st =>
    by_cases he : acc' = acc
    · subst he
      simp [h]
    · simp [h, he]
  | none =>
    simp only [h, lookupPair_setPair]
    by_cases he : acc' = acc <;> simp [he, h]

/-- The code's backoff clause agrees with the claim's transcription. -/
theorem backoffWaitTime_eq_claimed (st : AccountRateLimitState) (now : Int) :
    backoffWaitTime st now = claimedBackoffWait st now := by
  unfold backoffWaitTime claimedBackoffWait
  cases hl : st.lastRequestAt with
  | none => simp
  | some l =>
    by_cases he : st.consecutiveErrors > 0
    · simp only [if_pos he]
      by_cases hx : st.currentBackoffMs - (now - l) > 0
      · rw [if_pos hx, max_eq_right (le_of_lt hx)]
      · rw [if_neg hx, max_eq_left (by omega)]
    · simp [he]

/-- C1: for every account id, shouldWait agrees with the claim's
description on the account's stored-or-fresh state: a future resetAt
yields the remaining time immediately and without consulting the backoff
clause, an expired resetAt is cleared as a side effect, and otherwise the
wait is the still-unelapsed portion of currentBackoffMs from
lastRequestAt (0 when fully elapsed), applying only while
consecutiveErrors is positive; in particular the call may proceed (0)
exactly when the transcription says so. -/
theorem shouldWait_matches_claim (rl : RateLimiter) (acc : String) (now : Int) :
    (shouldWait rl acc now).1 =
      (claimedShouldWait ((lookupPair rl.accountStates acc).getD (defaultState rl)) now).1
  ∧ lookupPair (shouldWait rl acc now).2.accountStates acc =
      some (claimedShouldWait ((lookupPair rl.accountStates acc).getD (defaultState rl)) now).2 := by
  have hfst := getAccountState_fst rl acc
  have hlk := getAccountState_lookup rl acc acc
  rw [if_pos rfl] at hlk
  simp only [shouldWait, claimedShouldWait, hfst]
  cases hr : ((lookupPair rl.accountStates acc).getD (defaultState rl)).resetAt with
  | none =>
    exact ⟨backoffWaitTime_eq_claimed _ _, hlk⟩
  | some r =>
    dsimp only
    by_cases hpos : r - now > 0
    · rw [if_pos hpos, if_pos (show now < r by omega)]
      exact ⟨rfl, hlk⟩
    · rw [if_neg hpos, if_neg (show ¬ now < r by omega)]
      refine ⟨backoffWaitTime_eq_claimed _ _, ?_⟩
      dsimp only
      rw [lookupPair_setPair, if_pos rfl]

/-- Writing back the value a field already holds changes nothing. -/
theorem resetAt_eta (st : AccountRateLimitState) (v : Option Int) (h : st.resetAt = v) :
    { st with resetAt := v } = st := by
  cases st
  simp_all

/-- C8: the read operations never touch consecutiveErrors,
currentBackoffMs or lastRequestAt of any account: getCurrentBackoff and
getConsecutiveErrors at most lazily insert the fresh default state for an
unseen account, shouldWait additionally at most clears an expired
resetAt, and the state of every other account is read back unchanged. -/
theorem read_ops_frame (rl : RateLimiter) (acc : String) (now : Int) (acc' : String) :
    lookupPair (getCurrentBackoff rl acc).2.accountStates acc' =
      (if acc' = acc then some ((lookupPair rl.accountStates acc).getD (defaultState rl))
       else lookupPair rl.accountStates acc')
  ∧ lookupPair (getConsecutiveErrors rl acc).2.accountStates acc' =
      (if acc' = acc then some ((lookupPair rl.accountStates acc).getD (defaultState rl))
       else lookupPair rl.accountStates acc')
  ∧ lookupPair (shouldWait rl acc now).2.accountStates acc' =
      (if acc' = acc then
        some { (lookupPair rl.accountStates acc).getD (defaultState rl) with
               resetAt :=
                 match ((lookupPair rl.accountStates acc).getD (defaultState rl)).resetAt with
                 | some r => if r - now > 0 then some r else none
                 | none => none }
       else lookupPair rl.accountStates acc') := by
  refine ⟨getAccountState_lookup rl acc acc', getAccountState_lookup rl acc acc', ?_⟩
  simp only [shouldWait]
  cases hr : ((getAccountState rl acc).1).resetAt with
  | none =>
    dsimp only
    rw [getAccountState_fst] at hr
    rw [getAccountState_lookup, hr]
    dsimp only
    by_cases he : acc' = acc
    · rw [if_pos he, if_pos he, resetAt_eta _ _ hr]
    · rw [if_neg he, if_neg he]
  | some r =>
    dsimp only
    rw [getAccountState_fst] at hr
    by_cases hpos : r - now > 0
    · rw [if_pos hpos]
      dsimp only
      rw [getAccountState_lookup, hr]
      dsimp only
      rw [if_pos hpos, resetAt_eta _ _ hr]
    · rw [if_neg hpos]
      dsimp only
      rw [lookupPair_setPair, getAccountState_fst, hr]
      dsimp only
      rw [if_neg hpos]
      by_cases he : acc' = acc
      · rw [if_pos he, if_pos he]
      · rw [if_neg he, if_neg he, getAccountState_lookup, if_neg he]

/-- C9: immediately after recordSuccess, shouldWait answers 0 for that
account at any later instant: recordSuccess zeroes consecutiveErrors and
clears resetAt, so neither wait clause can fire even though
lastRequestAt was stamped. -/
theorem shouldWait_zero_after_success (rl : RateLimiter) (acc : String) (now now' : Int) :
    (shouldWait (recordSuccess rl acc now) acc now').1 = 0 := by
  simp only [recordSuccess, shouldWait, getAccountState_fst]
  rw [lookupPair_setPair, if_pos rfl]
  simp [backoffWaitTime]

/-- C2: recordRateLimitError with no reset time doubles the backoff
capped at maxDelay and increments consecutiveErrors; with a reset time it
stores the deadline as-is and leaves the backoff untouched (the counter
is still incremented and lastRequestAt stamped); with base 1000 and max
10000 the backoff observed through getCurrentBackoff after n such calls
runs 2000, 4000, 8000, 10000, 10000. -/
theorem recordRateLimitError_matches_claim (rl : RateLimiter) (acc : String)
    (resetAt : Option Int) (now : Int) :
    (lookupPair (recordRateLimitError rl acc resetAt now).accountStates acc =
      some
        { consecutiveErrors :=
            ((lookupPair rl.accountStates acc).getD (defaultState rl)).consecutiveErrors + 1,
          resetAt :=
            match resetAt with
            | some r => some r
            | none => ((lookupPair rl.accountStates acc).getD (defaultState rl)).resetAt,
          currentBackoffMs :=
            match resetAt with
            | some _ =>
              ((lookupPair rl.accountStates acc).getD (defaultState rl)).currentBackoffMs
            | none =>
              min
                (((lookupPair rl.accountStates acc).getD (defaultState rl)).currentBackoffMs * 2)
                rl.maxDelayMs,
          lastRequestAt := some now })
  ∧ (getCurrentBackoff (repeatedRateLimitErrors 1) "acc").1 = 2000
  ∧ (getCurrentBackoff (repeatedRateLimitErrors 2) "acc").1 = 4000
  ∧ (getCurrentBackoff (repeatedRateLimitErrors 3) "acc").1 = 8000
  ∧ (getCurrentBackoff (repeatedRateLimitErrors 4) "acc").1 = 10000
  ∧ (getCurrentBackoff (repeatedRateLimitErrors 5) "acc").1 = 10000 := by
  refine ⟨?_, by decide, by decide, by decide, by decide, by decide⟩
  simp only [recordRateLimitError, getAccountState_fst, getAccountState_max]
  rw [lookupPair_setPair, if_pos rfl]
  cases resetAt <;> rfl

/-- C3 counterexample: with no Retry-After and X-RateLimit-Reset exactly
10000000000, the code multiplies by 1000 (the threshold test is strict),
so the result is 10000000000000 ms and not the 10000000000 ms that the
claim's at-or-above-means-milliseconds reading predicts. -/
theorem parseRateLimitHeaders_boundary :
    parseRateLimitHeaders dpNone
        { retryAfter := none, xRateLimitReset := some "10000000000" } 0
      = some 10000000000000
  ∧ some (10000000000000 : Int) ≠ some (10000000000 : Int) := by
  exact ⟨rfl, by decide⟩

/-- The X-RateLimit-Reset block written the amended claim's way: integer
values at or below 10000000000 are seconds and multiplied by 1000, larger
values are taken as milliseconds. -/
theorem parseXRateLimitReset_eq_claimed (headers : HeadersModel) :
    parseXRateLimitReset headers =
      headers.xRateLimitReset.bind (fun s =>
        (parseIntJS s).map (fun ts => if ts ≤ 10000000000 then ts * 1000 else ts)) := by
  unfold parseXRateLimitReset
  cases hx : headers.xRateLimitReset with
  | none => rfl
  | some s =>
    dsimp only [Option.bind]
    cases hp : parseIntJS s with
    | none => rfl
    | some ts =>
      dsimp only [Option.map]
      by_cases h : ts > 10000000000
      · rw [if_pos h, if_neg (show ¬ ts ≤ 10000000000 by omega)]
      · rw [if_neg h, if_pos (show ts ≤ 10000000000 by omega)]

/-- C3 amended: parseRateLimitHeaders attempts Retry-After first (integer
seconds from now, else the HTTP date), and only failing both falls back
to an integer X-RateLimit-Reset, whose values at or below 10000000000 are
seconds multiplied by 1000 while strictly larger values are taken as
already-milliseconds; with no parseable header it returns nothing. -/
theorem parseRateLimitHeaders_matches_amended (dp : String → Option Int)
    (headers : HeadersModel) (now : Int) :
    parseRateLimitHeaders dp headers now = claimedParseRateLimit dp headers now := by
  unfold parseRateLimitHeaders claimedParseRateLimit
  rw [← parseXRateLimitReset_eq_claimed]
  cases hra : headers.retryAfter with
  | none => rfl
  | some ra =>
    cases hp : parseIntJS ra with
    | some s => simp [Option.bind, hp]
    | none =>
      cases hd : dp ra with
      | some t => simp [Option.bind, hp, hd]
      | none => simp [Option.bind, hp, hd]

/-- C4: every outcome of a single transport attempt resolves to a typed
error (or a success), never a bare value, with category and retryability
fixed by the outcome exactly as the claim's table says: statuses per
claimedStatusClass, a cancellation as retryable timeout, a recognized
connectivity failure as retryable connection, any other thrown non-typed
value as retryable unknown, and an already-typed error rethrown
unchanged. -/
theorem executeRequest_classification (dp : String → Option Int)
    (opts : RequestOptionsModel) (tmo : Int) (attempt : Nat) (now : Int)
    (resp : HttpResponseModel) (e : TypedError) (name msg val : String) :
    resultCategory (executeRequest dp (TransportOutcome.response resp) opts tmo attempt now)
      = claimedStatusClass resp.status
  ∧ executeRequest dp (TransportOutcome.thrownTyped e) opts tmo attempt now = Except.error e
  ∧ resultCategory
        (executeRequest dp (TransportOutcome.thrownJsError name msg) opts tmo attempt now)
      = some (if name = "AbortError" then (ErrorCategory.timeout, true)
              else if strContains msg "ECONNREFUSED" || strContains msg "ENOTFOUND" ||
                  strContains msg "network" then (ErrorCategory.connection, true)
              else (ErrorCategory.unknown, true))
  ∧ resultCategory (executeRequest dp (TransportOutcome.thrownOther val) opts tmo attempt now)
      = some (ErrorCategory.unknown, true) := by
  refine ⟨?_, rfl, ?_, rfl⟩
  · simp only [executeRequest, handleResponse, claimedStatusClass]
    split_ifs <;> first | rfl | (exfalso; omega)
  · simp only [executeRequest]
    split_ifs <;> rfl

/-- C5: with retry disabled on the client and a positive shouldWait for
the request's account bucket, request fails at once with a rate_limit
error whose context carries now plus the computed wait as the reset time,
and the transport is never invoked (zero attempts). -/
theorem request_rate_limited_no_retry (dp : String → Option Int) (cfg : HttpClientConfig)
    (opts : RequestOptionsModel) (transport : Nat → TransportOutcome) (rl : RateLimiter)
    (now : Int) (hretry : cfg.enableRetry = false)
    (hwait : 0 < (shouldWait rl (opts.accountId.getD "global") now).1) :
    request dp cfg opts transport rl now =
      { result := Except.error (mkRateLimitError
          ("Rate limit active, retry after " ++
            toString (shouldWait rl (opts.accountId.getD "global") now).1 ++ "ms")
          { accountId := some (opts.accountId.getD "global"),
            rateLimitResetAt :=
              some (now + (shouldWait rl (opts.accountId.getD "global") now).1) }),
        attempts := 0,
        limiter := (shouldWait rl (opts.accountId.getD "global") now).2,
        finalNow := now } := by
  simp only [request]
  rw [if_pos hwait, hretry]
  simp

/-- C6: when the first transport attempt classifies to a non-retryable
typed error, request performs exactly one transport invocation and
propagates that error, for every maxRetries budget and whether or not
retry is enabled (given the budget allows a first attempt and no
rate-limit wait precedes it). -/
theorem request_non_retryable_single_attempt (dp : String → Option Int)
    (cfg : HttpClientConfig) (opts : RequestOptionsModel)
    (transport : Nat → TransportOutcome) (rl : RateLimiter) (now : Int) (e : TypedError)
    (hwait : (shouldWait rl (opts.accountId.getD "global") now).1 = 0)
    (hmax : cfg.enableRetry = true → 1 ≤ cfg.maxRetries)
    (herr : executeRequest dp (transport 1) opts (opts.timeout.getD cfg.timeout) 1 now
      = Except.error e)
    (hnr : e.isRetryable = false) :
    (request dp cfg opts transport rl now).result = Except.error e
  ∧ (request dp cfg opts transport rl now).attempts = 1 := by
  have hloop : ∀ (rem : Nat) (rl' : RateLimiter), 0 < rem →
      attemptLoop dp cfg opts transport (opts.accountId.getD "global") rl' now 1 rem
          none 0 =
        { result := Except.error e, attempts := 1, limiter := rl', finalNow := now } := by
    intro rem rl' hrem
    obtain ⟨r2, rfl⟩ : ∃ r2, rem = r2 + 1 := ⟨rem - 1, by omega⟩
    simp only [attemptLoop, herr]
    rw [if_pos (Or.inl hnr)]
  simp only [request, hwait]
  rw [if_neg (show ¬ (0 : Int) > 0 by omega)]
  cases hb : cfg.enableRetry with
  | false =>
    rw [if_neg Bool.false_ne_true, hloop 1 _ (by omega)]
    exact ⟨rfl, rfl⟩
  | true =>
    rw [if_pos rfl, hloop cfg.maxRetries _ (hmax hb)]
    exact ⟨rfl, rfl⟩

/-- Pointwise range facts for the state getAccountState hands back, from
the limiter invariant. -/
theorem stateInv_of_inv {base maxD : Int} {rl : RateLimiter} (h : RLInv base maxD rl)
    (h1 : base ≤ maxD) (acc : String) :
    base ≤ (getAccountState rl acc).1.currentBackoffMs
  ∧ (getAccountState rl acc).1.currentBackoffMs ≤ maxD
  ∧ ((getAccountState rl acc).1.consecutiveErrors = 0 →
      (getAccountState rl acc).1.currentBackoffMs = base) := by
  obtain ⟨hb, hm, hinv⟩ := h
  rw [getAccountState_fst]
  cases hl : lookupPair rl.accountStates acc with
  | some st => exact hinv _ (lookupPair_mem hl)
  | none => refine ⟨?_, ?_, fun _ => ?_⟩ <;> simp [defaultState, hb, h1]

/-- getAccountState preserves the limiter invariant. -/
theorem inv_getAccountState {base maxD : Int} {rl : RateLimiter} (h : RLInv base maxD rl)
    (h1 : base ≤ maxD) (acc : String) : RLInv base maxD (getAccountState rl acc).2 := by
  obtain ⟨hb, hm, hinv⟩ := h
  unfold getAccountState
  cases hl : lookupPair rl.accountStates acc with
  | some st => exact ⟨hb, hm, hinv⟩
  | none =>
    refine ⟨hb, hm, ?_⟩
    intro p hp
    rcases mem_setPair hp with h' | h'
    · subst h'
      refine ⟨?_, ?_, fun _ => ?_⟩ <;> simp [defaultState, hb, h1]
    · exact hinv p h'

/-- Writing a value in range preserves the map invariant. -/
theorem inv_setPair {base maxD : Int} {m : List (String × AccountRateLimitState)}
    (h : BackoffInv base maxD m) {k : String} {v : AccountRateLimitState}
    (hv : base ≤ v.currentBackoffMs ∧ v.currentBackoffMs ≤ maxD ∧
      (v.consecutiveErrors = 0 → v.currentBackoffMs = base)) :
    BackoffInv base maxD (setPair m k v) := by
  intro p hp
  rcases mem_setPair hp with h' | h'
  · subst h'
    exact hv
  · exact h p h'

/-- Every public RateLimiter call preserves the limiter invariant, given
a nonnegative base delay not above the max delay. -/
theorem inv_applyOp {base maxD : Int} {rl : RateLimiter} (h0 : 0 ≤ base) (h1 : base ≤ maxD)
    (h : RLInv base maxD rl) (op : LimiterOp) : RLInv base maxD (applyOp rl op) := by
  obtain ⟨hb, hm, hinv⟩ := h
  cases op with
  | opShouldWait acc now =>
    have hgs := inv_getAccountState ⟨hb, hm, hinv⟩ h1 acc
    have hst := stateInv_of_inv ⟨hb, hm, hinv⟩ h1 acc
    simp only [applyOp, shouldWait]
    cases hr : (getAccountState rl acc).1.resetAt with
    | none => exact hgs
    | some r =>
      dsimp only
      by_cases hpos : r - now > 0
      · rw [if_pos hpos]
        exact hgs
      · rw [if_neg hpos]
        obtain ⟨hgb, hgm, hginv⟩ := hgs
        refine ⟨hgb, hgm, ?_⟩
        exact inv_setPair hginv hst
  | opRecordSuccess acc now =>
    obtain ⟨hgb, hgm, hginv⟩ := inv_getAccountState ⟨hb, hm, hinv⟩ h1 acc
    simp only [applyOp, recordSuccess]
    refine ⟨hgb, hgm, ?_⟩
    apply inv_setPair hginv
    refine ⟨?_, ?_, fun _ => ?_⟩ <;> simp [hgb, h1]
  | opRecordError acc rs now =>
    obtain ⟨hgb, hgm, hginv⟩ := inv_getAccountState ⟨hb, hm, hinv⟩ h1 acc
    obtain ⟨hsb, hsm, _⟩ := stateInv_of_inv ⟨hb, hm, hinv⟩ h1 acc
    simp only [applyOp, recordRateLimitError]
    refine ⟨hgb, hgm, ?_⟩
    cases rs with
    | some r =>
      dsimp only
      apply inv_setPair hginv
      exact ⟨hsb, hsm, fun hc => absurd hc (Nat.succ_ne_zero _)⟩
    | none =>
      dsimp only
      apply inv_setPair hginv
      refine ⟨?_, ?_, fun hc => absurd hc (Nat.succ_ne_zero _)⟩
      · rw [hgm]
        exact le_min (by omega) h1
      · rw [hgm]
        exact min_le_right _ _
  | opReset acc =>
    exact ⟨hb, hm, fun p hp => hinv p (mem_delPair hp)⟩
  | opResetAll =>
    exact ⟨hb, hm, fun p hp => absurd hp (List.not_mem_nil p)⟩
  | opGetBackoff acc => exact inv_getAccountState ⟨hb, hm, hinv⟩ h1 acc
  | opGetErrors acc => exact inv_getAccountState ⟨hb, hm, hinv⟩ h1 acc

/-- The limiter invariant holds in every reachable state. -/
theorem runOps_inv (base maxD : Int) (h0 : 0 ≤ base) (h1 : base ≤ maxD)
    (ops : List LimiterOp) : RLInv base maxD (runOps (mkRateLimiter base maxD) ops) := by
  have hinit : RLInv base maxD (mkRateLimiter base maxD) :=
    ⟨rfl, rfl, fun p hp => absurd hp (List.not_mem_nil p)⟩
  suffices H : ∀ rl, RLInv base maxD rl → RLInv base maxD (runOps rl ops) from H _ hinit
  unfold runOps
  induction ops with
  | nil => exact fun rl h => h
  | cons op rest ih =>
    intro rl h
    exact ih _ (inv_applyOp h0 h1 h op)

/-- C7 counterexample: a limiter constructed with baseDelay -1 and
maxDelay 0 satisfies the claim's only assumption (baseDelay at most
maxDelay), yet a single recordRateLimitError doubles the backoff to -2,
below baseDelay, leaving the claimed range. -/
theorem backoff_invariant_needs_nonneg_base :
    (-1 : Int) ≤ 0
  ∧ (getCurrentBackoff
        (runOps (mkRateLimiter (-1) 0) [LimiterOp.opRecordError "a" none 0]) "a").1 = -2
  ∧ ¬ ((-1 : Int) ≤
        (getCurrentBackoff
          (runOps (mkRateLimiter (-1) 0) [LimiterOp.opRecordError "a" none 0]) "a").1) := by
  exact ⟨by decide, by decide, by decide⟩

/-- C7 amended (the claim additionally needs a nonnegative baseDelay):
for a limiter constructed with 0 ≤ baseDelay ≤ maxDelay, in every state
reachable by any sequence of shouldWait, recordSuccess,
recordRateLimitError, reset, resetAll, getCurrentBackoff and
getConsecutiveErrors calls, every account's currentBackoffMs lies between
baseDelay and maxDelay, and consecutiveErrors = 0 forces currentBackoffMs
= baseDelay. -/
theorem backoff_invariant_reachable (base maxD : Int) (h0 : 0 ≤ base) (h1 : base ≤ maxD)
    (ops : List LimiterOp) (acc : String) :
    base ≤ (getCurrentBackoff (runOps (mkRateLimiter base maxD) ops) acc).1
  ∧ (getCurrentBackoff (runOps (mkRateLimiter base maxD) ops) acc).1 ≤ maxD
  ∧ ((getConsecutiveErrors (runOps (mkRateLimiter base maxD) ops) acc).1 = 0 →
      (getCurrentBackoff (runOps (mkRateLimiter base maxD) ops) acc).1 = base) := by
  exact stateInv_of_inv (runOps_inv base maxD h0 h1 ops) h1 acc

/-- C10: fromEnv treats an environment variable set to the empty string
exactly like an absent one: whenever UNIPILE_DSN or UNIPILE_API_KEY is
undefined or empty it fails with a descriptive (nonempty) message and no
configuration is produced for the client constructor, and replacing an
absent value of either variable by the empty string never changes the
outcome. -/
theorem fromEnv_missing_vars (env : EnvModel)
    (h : env.unipileDsn = none ∨ env.unipileDsn = some "" ∨
         env.unipileApiKey = none ∨ env.unipileApiKey = some "") :
    (∃ msg, fromEnv env = Except.error msg ∧ msg ≠ "")
  ∧ fromEnv { env with unipileDsn := some "" } = fromEnv { env with unipileDsn := none }
  ∧ fromEnv { env with unipileApiKey := some "" } =
      fromEnv { env with unipileApiKey := none } := by
  refine ⟨?_, ?_, ?_⟩
  · rcases h with h | h | h | h
    · exact ⟨"UNIPILE_DSN environment variable is required",
        by simp [fromEnv, h], by decide⟩
    · exact ⟨"UNIPILE_DSN environment variable is required",
        by simp [fromEnv, h], by decide⟩
    · cases hd : env.unipileDsn with
      | none => exact ⟨"UNIPILE_DSN environment variable is required",
          by simp [fromEnv, hd], by decide⟩
      | some d =>
        by_cases hde : d = ""
        · exact ⟨"UNIPILE_DSN environment variable is required",
            by simp [fromEnv, hd, hde], by decide⟩
        · exact ⟨"UNIPILE_API_KEY environment variable is required",
            by simp [fromEnv, hd, hde, h], by decide⟩
    · cases hd : env.unipileDsn with
      | none => exact ⟨"UNIPILE_DSN environment variable is required",
          by simp [fromEnv, hd], by decide⟩
      | some d =>
        by_cases hde : d = ""
        · exact ⟨"UNIPILE_DSN environment variable is required",
            by simp [fromEnv, hd, hde], by decide⟩
        · exact ⟨"UNIPILE_API_KEY environment variable is required",
            by simp [fromEnv, hd, hde, h], by decide⟩
  · simp [fromEnv]
  · cases hd : env.unipileDsn with
    | none => simp [fromEnv, hd]
    | some d => by_cases hde : d = "" <;> simp [fromEnv, hd, hde]

/-
Witnesses: concrete instantiations of the theorems with hypotheses.
-/

/-- Witness for C5: a client with retry disabled and a pending 5000 ms
deadline fails at once without touching the transport. -/
theorem request_rate_limited_no_retry_witness :
    request dpNone { enableRetry := false } { accountId := some "a" } (transportStatus 200)
        (recordRateLimitError (mkRateLimiter 1000 10000) "a" (some 5000) 0) 0 =
      { result := Except.error (mkRateLimitError "Rate limit active, retry after 5000ms"
          { accountId := some "a", rateLimitResetAt := some 5000 }),
        attempts := 0,
        limiter := (shouldWait (recordRateLimitError (mkRateLimiter 1000 10000) "a"
          (some 5000) 0) "a" 0).2,
        finalNow := 0 } :=
  request_rate_limited_no_retry dpNone { enableRetry := false } { accountId := some "a" }
    (transportStatus 200) (recordRateLimitError (mkRateLimiter 1000 10000) "a" (some 5000) 0)
    0 rfl (by decide)

/-- Witness for C6: a 400 response on the first attempt of a fresh
retry-enabled client is propagated after exactly one transport call. -/
theorem request_non_retryable_single_attempt_witness :
    (request dpNone { maxRetries := 3 } {} (transportStatus 400)
        (mkRateLimiter 1000 10000) 0).result =
      Except.error (mkValidationError "Validation failed"
        { statusCode := some 400, url := some "", method := some "GET",
          accountId := none, retryAttempt := some 1 })
  ∧ (request dpNone { maxRetries := 3 } {} (transportStatus 400)
        (mkRateLimiter 1000 10000) 0).attempts = 1 :=
  request_non_retryable_single_attempt dpNone { maxRetries := 3 } {} (transportStatus 400)
    (mkRateLimiter 1000 10000) 0
    (mkValidationError "Validation failed"
      { statusCode := some 400, url := some "", method := some "GET",
        accountId := none, retryAttempt := some 1 })
    (by decide) (fun _ => by decide) rfl rfl

/-- Witness for C7: the invariant evaluated after one error on a limiter
with base 1000 and max 10000. -/
theorem backoff_invariant_reachable_witness :
    (0 : Int) ≤ 1000 ∧ (1000 : Int) ≤ 10000
  ∧ (1000 ≤ (getCurrentBackoff (runOps (mkRateLimiter 1000 10000)
        [LimiterOp.opRecordError "a" none 0]) "a").1
    ∧ (getCurrentBackoff (runOps (mkRateLimiter 1000 10000)
        [LimiterOp.opRecordError "a" none 0]) "a").1 ≤ 10000
    ∧ ((getConsecutiveErrors (runOps (mkRateLimiter 1000 10000)
          [LimiterOp.opRecordError "a" none 0]) "a").1 = 0 →
        (getCurrentBackoff (runOps (mkRateLimiter 1000 10000)
          [LimiterOp.opRecordError "a" none 0]) "a").1 = 1000)) :=
  ⟨by decide, by decide,
    backoff_invariant_reachable 1000 10000 (by decide) (by decide)
      [LimiterOp.opRecordError "a" none 0] "a"⟩

/-- Witness for C10: an environment with UNIPILE_DSN unset. -/
theorem fromEnv_missing_vars_witness :
    (∃ msg, fromEnv { unipileDsn := none, unipileApiKey := some "k", unipileUseHttp := none }
        = Except.error msg ∧ msg ≠ "")
  ∧ fromEnv { unipileDsn := some "", unipileApiKey := some "k", unipileUseHttp := none } =
      fromEnv { unipileDsn := none, unipileApiKey := some "k", unipileUseHttp := none }
  ∧ fromEnv { unipileDsn := none, unipileApiKey := some "", unipileUseHttp := none } =
      fromEnv { unipileDsn := none, unipileApiKey := none, unipileUseHttp := none } :=
  fromEnv_missing_vars
    { unipileDsn := none, unipileApiKey := some "k", unipileUseHttp := none } (Or.inl rfl)

end Unipile
